import Mathlib

/-!
Shallow embedding of the LinguaCraft flow pipeline (bless-hackathon-server).

Each Genkit flow is modelled as a pure function of its validated input and an
oracle standing for the external generative model.  A structured prompt oracle
returns `Option` of the flow's raw reply shape (`none` models a null structured
output); the free-form generation oracle used by the text-to-speech flow is
replaced by the concrete response value it produced.  Every flow also returns
the list of model calls it issued, so short-circuit behaviour ("no model
invocation occurs") is a statement about that list.

JavaScript string semantics that the source relies on (truthiness of strings,
trim, toLowerCase/toUpperCase on the ASCII range, the data-field length) are
embedded explicitly as the js* helpers below.
-/

namespace LinguaCraft

/-- Whitespace characters removed by JavaScript String.prototype.trim
(the subset reachable from the inputs considered here). -/
def jsWhitespace (c : Char) : Bool :=
  c == ' ' || c == '\t' || c == '\n' || c == '\r' || c == '\x0B' || c == '\x0C' ||
    c == '\u00A0' || c == '\uFEFF'

/-- Trim on character lists: drop leading whitespace, then trailing whitespace. -/
def jsTrimList (l : List Char) : List Char :=
  ((l.dropWhile jsWhitespace).reverse.dropWhile jsWhitespace).reverse

/-- Model of JavaScript String.prototype.trim. -/
def jsTrim (s : String) : String :=
  String.mk (jsTrimList s.toList)

/-- Model of toLowerCase, restricted to the ASCII letters that occur here. -/
def jsToLowerChar (c : Char) : Char :=
  if 'A' ≤ c ∧ c ≤ 'Z' then Char.ofNat (c.toNat + 32) else c

/-- Model of String.prototype.toLowerCase on the ASCII range. -/
def jsToLower (s : String) : String :=
  String.mk (s.toList.map jsToLowerChar)

/-- Model of toUpperCase, restricted to the ASCII letters that occur here. -/
def jsToUpperChar (c : Char) : Char :=
  if 'a' ≤ c ∧ c ≤ 'z' then Char.ofNat (c.toNat - 32) else c

/-- Model of String.prototype.toUpperCase on the ASCII range. -/
def jsToUpper (s : String) : String :=
  String.mk (s.toList.map jsToUpperChar)

/-- JavaScript `x || d` where `x` is a possibly-absent string field: both
an absent field and an empty string are falsy and select the fallback. -/
def jsOrString (v : Option String) (d : String) : String :=
  match v with
  | some s => if s = "" then d else s
  | none => d

/-- JavaScript `x || d` where `x` is a possibly-absent array field: an array is
always truthy (even when empty), so only an absent field selects the fallback. -/
def jsOrList (v : Option (List String)) (d : List String) : List String :=
  v.getD d

/-- Truthiness of a possibly-absent JavaScript string. -/
def jsTruthyStr (v : Option String) : Bool :=
  match v with
  | some s => !(s == "")
  | none => false

/-- Boolean test that a pattern is an initial segment of a character list. -/
def chunkMatches : List Char → List Char → Bool
  | [], _ => true
  | _ :: _, [] => false
  | p :: ps, c :: cs => p == c && chunkMatches ps cs

/-- Boolean substring search on character lists. -/
def hasSubList (pat : List Char) : List Char → Bool
  | [] => chunkMatches pat []
  | c :: cs => chunkMatches pat (c :: cs) || hasSubList pat cs

/-- Model of JavaScript String.prototype.includes. -/
def jsIncludes (s sub : String) : Bool :=
  hasSubList sub.toList s.toList

/-- Model of String.prototype.startsWith. -/
def jsStartsWith (s patt : String) : Bool :=
  chunkMatches patt.toList s.toList

instance {ε α : Type} [DecidableEq ε] [DecidableEq α] : DecidableEq (Except ε α) :=
  fun a b =>
    match a, b with
    | Except.ok x, Except.ok y =>
        if h : x = y then Decidable.isTrue (by rw [h])
        else Decidable.isFalse (by intro hc; cases hc; exact h rfl)
    | Except.error x, Except.error y =>
        if h : x = y then Decidable.isTrue (by rw [h])
        else Decidable.isFalse (by intro hc; cases hc; exact h rfl)
    | Except.ok _, Except.error _ => Decidable.isFalse (by intro hc; cases hc)
    | Except.error _, Except.ok _ => Decidable.isFalse (by intro hc; cases hc)

/-- Language codes accepted by the translation-family flows (en, en-US, vi). -/
inductive Lang where
  | en
  | enUS
  | vi
  deriving DecidableEq, Repr

/-- Wire form of a language code. -/
def langCode : Lang → String
  | Lang.en => "en"
  | Lang.enUS => "en-US"
  | Lang.vi => "vi"

/-- Zod enumeration check for the en / en-US / vi language codes. -/
def parseLang (s : String) : Option Lang :=
  if s = "en" then some Lang.en
  else if s = "en-US" then some Lang.enUS
  else if s = "vi" then some Lang.vi
  else none

/-- Language codes accepted by the text-to-speech flow. -/
inductive TtsLang where
  | en
  | enUS
  | vi
  | ko
  | es
  | fr
  | de
  | ja
  deriving DecidableEq, Repr

/-- Zod enumeration check for the text-to-speech language codes. -/
def parseTtsLang (s : String) : Option TtsLang :=
  if s = "en" then some TtsLang.en
  else if s = "en-US" then some TtsLang.enUS
  else if s = "vi" then some TtsLang.vi
  else if s = "ko" then some TtsLang.ko
  else if s = "es" then some TtsLang.es
  else if s = "fr" then some TtsLang.fr
  else if s = "de" then some TtsLang.de
  else if s = "ja" then some TtsLang.ja
  else none

structure TranslateTextInput where
  text : String
  sourceLanguage : Lang
  targetLanguage : Lang
  deriving DecidableEq, Repr

structure TranslateTextOutput where
  translatedText : String
  deriving DecidableEq, Repr

structure SpeechToTextInput where
  audioDataUri : String
  sourceLanguage : Lang
  targetLanguage : Lang
  deriving DecidableEq, Repr

structure SpeechToTextOutput where
  transcription : String
  translation : String
  deriving DecidableEq, Repr

structure GetWordDetailsInput where
  word : String
  language : Lang
  deriving DecidableEq, Repr

/-- Raw structured reply of the word-details prompt: the source guards each
field with a JavaScript falsy check, so every field is possibly absent. -/
structure GetWordDetailsRaw where
  definedWord : Option String
  type : Option String
  meaning : Option String
  synonyms : Option (List String)
  antonyms : Option (List String)
  deriving DecidableEq, Repr

structure GetWordDetailsOutput where
  definedWord : String
  type : String
  meaning : String
  synonyms : List String
  antonyms : List String
  deriving DecidableEq, Repr

structure GetAlternativeTranslationsInput where
  sourceText : String
  sourceLanguage : Lang
  targetLanguage : Lang
  count : Int
  deriving DecidableEq, Repr

structure GetAlternativeTranslationsOutput where
  alternatives : List String
  deriving DecidableEq, Repr

structure SuggestCorrectionInput where
  text : String
  language : Lang
  deriving DecidableEq, Repr

/-- Raw structured reply of the correction prompt: the source checks
typeof output.correctedText === 'string', so the field is possibly absent. -/
structure SuggestCorrectionRaw where
  correctedText : Option String
  deriving DecidableEq, Repr

structure SuggestCorrectionOutput where
  correctedText : String
  deriving DecidableEq, Repr

structure EnhanceTextInput where
  text : String
  language : Lang
  instruction : String
  deriving DecidableEq, Repr

/-- Raw structured reply of the enhancement prompt: the source checks
typeof output.enhancedText === 'string', so the field is possibly absent. -/
structure EnhanceTextRaw where
  enhancedText : Option String
  deriving DecidableEq, Repr

structure EnhanceTextOutput where
  enhancedText : String
  deriving DecidableEq, Repr

structure TextToSpeechInput where
  text : String
  language : TtsLang
  deriving DecidableEq, Repr

structure TextToSpeechOutput where
  audioDataUri : String
  deriving DecidableEq, Repr

/-- One call issued by a flow to the external model service. -/
inductive ModelCall where
  | structuredTranslate (i : TranslateTextInput)
  | structuredSpeechToText (i : SpeechToTextInput)
  | structuredWordDetails (i : GetWordDetailsInput)
  | structuredAlternatives (i : GetAlternativeTranslationsInput)
  | structuredCorrection (i : SuggestCorrectionInput)
  | structuredEnhance (i : EnhanceTextInput)
  | freeformGenerate (prompt : String)
  deriving DecidableEq, Repr

/-- Whether a model call is a free-form (unstructured) generation call. -/
def ModelCall.isFreeform : ModelCall → Bool
  | ModelCall.freeformGenerate _ => true
  | _ => false

/-- translateTextFlow: awaits the structured prompt and returns output
unchecked (the source's non-null assertion is a type-level cast only). -/
def translateTextFlow (input : TranslateTextInput)
    (prompt : TranslateTextInput → Option TranslateTextOutput) :
    Option TranslateTextOutput × List ModelCall :=
  (prompt input, [ModelCall.structuredTranslate input])

/-- speechToTextFlow: awaits the structured prompt and returns output
unchecked, exactly as translateTextFlow does. -/
def speechToTextFlow (input : SpeechToTextInput)
    (prompt : SpeechToTextInput → Option SpeechToTextOutput) :
    Option SpeechToTextOutput × List ModelCall :=
  (prompt input, [ModelCall.structuredSpeechToText input])

/-- Punctuation characters stripped from a word by getWordDetailsFlow. -/
def wordStripChars : List Char :=
  ['.', ',', '!', '?', ';', ':', '"', '“', '”', '（', '）']

/-- Basic cleaning applied to the word before it is sent to the model:
strip the punctuation set, trim, lowercase. -/
def cleanWord (w : String) : String :=
  jsToLower (jsTrim (String.mk (w.toList.filter (fun c => !(wordStripChars.contains c)))))

/-- Per-field fallback substitution of getWordDetailsFlow for a non-null reply. -/
def wordDetailsNormalize (cleanedWord : String) (output : GetWordDetailsRaw) :
    GetWordDetailsOutput :=
  { definedWord := jsOrString output.definedWord cleanedWord
    type := jsOrString output.type ("")
    meaning := jsOrString output.meaning ("")
    synonyms := jsOrList output.synonyms []
    antonyms := jsOrList output.antonyms [] }

/-- Re-embedding of a normalized word-details result as a raw reply whose
fields are all present and correctly typed. -/
def GetWordDetailsOutput.toRaw (o : GetWordDetailsOutput) : GetWordDetailsRaw :=
  { definedWord := some o.definedWord
    type := some o.type
    meaning := some o.meaning
    synonyms := some o.synonyms
    antonyms := some o.antonyms }

/-- getWordDetailsFlow: cleans the word, short-circuits when cleaning yields
an empty string, otherwise invokes the prompt on the cleaned word and applies
the per-field fallback substitution (with a dedicated record for a null reply). -/
def getWordDetailsFlow (input : GetWordDetailsInput)
    (prompt : GetWordDetailsInput → Option GetWordDetailsRaw) :
    GetWordDetailsOutput × List ModelCall :=
  let cleanedWord := cleanWord input.word
  if cleanedWord = "" then
    ({ definedWord := input.word
       type := ""
       meaning := "No word provided or word is only punctuation."
       synonyms := []
       antonyms := [] }, [])
  else
    let sent : GetWordDetailsInput := { input with word := cleanedWord }
    match prompt sent with
    | some output => (wordDetailsNormalize cleanedWord output,
        [ModelCall.structuredWordDetails sent])
    | none =>
        ({ definedWord := cleanedWord
           type := ""
           meaning := "Could not retrieve details for this word."
           synonyms := []
           antonyms := [] }, [ModelCall.structuredWordDetails sent])

/-- getAlternativeTranslationsFlow: short-circuits on a whitespace-only source
text, otherwise invokes the prompt and falls back to an empty list on a null
reply (output or empty-alternatives object). -/
def getAlternativeTranslationsFlow (input : GetAlternativeTranslationsInput)
    (prompt : GetAlternativeTranslationsInput → Option GetAlternativeTranslationsOutput) :
    GetAlternativeTranslationsOutput × List ModelCall :=
  if jsTrim input.sourceText = "" then
    ({ alternatives := [] }, [])
  else
    ((prompt input).getD { alternatives := [] },
      [ModelCall.structuredAlternatives input])

/-- suggestCorrectionFlow: short-circuits on whitespace-only text, returns the
reply when its correctedText field is a string, else falls back to the input. -/
def suggestCorrectionFlow (input : SuggestCorrectionInput)
    (prompt : SuggestCorrectionInput → Option SuggestCorrectionRaw) :
    SuggestCorrectionOutput × List ModelCall :=
  if jsTrim input.text = "" then
    ({ correctedText := "" }, [])
  else
    match prompt input with
    | some output =>
        match output.correctedText with
        | some s => ({ correctedText := s }, [ModelCall.structuredCorrection input])
        | none => ({ correctedText := input.text }, [ModelCall.structuredCorrection input])
    | none => ({ correctedText := input.text }, [ModelCall.structuredCorrection input])

/-- Template-literal prompt of the secondary free-form generation call in
enhanceTextFlow. -/
def enhanceFallbackPrompt (input : EnhanceTextInput) : String :=
  "You are an expert text editor. You will be given a text and an instruction.\nModify the text according to the instruction, maintaining the original language (" ++
    langCode input.language ++
    ").\nOnly output the modified text.\n\nOriginal Text:\n\"\"\"\n" ++
    input.text ++
    "\n\"\"\"\n\nInstruction:\n\"\"\"\n" ++
    input.instruction ++
    "\n\"\"\"\n\nModified Text:"

/-- Normalization applied to a usable primary enhancement reply: the
enhancedText field is trimmed. -/
def enhanceNormalize (output : EnhanceTextRaw) : Option EnhanceTextOutput :=
  match output.enhancedText with
  | some s => some { enhancedText := jsTrim s }
  | none => none

/-- The secondary free-form generation path of enhanceTextFlow: its trimmed
text is returned when truthy, the original input text otherwise. -/
def enhanceTextSecondary (input : EnhanceTextInput)
    (generate : String → Option String) : EnhanceTextOutput × List ModelCall :=
  let p := enhanceFallbackPrompt input
  let calls := [ModelCall.structuredEnhance input, ModelCall.freeformGenerate p]
  match generate p with
  | some s =>
      let t := jsTrim s
      if t = "" then ({ enhancedText := input.text }, calls)
      else ({ enhancedText := t }, calls)
  | none => ({ enhancedText := input.text }, calls)

/-- enhanceTextFlow: short-circuits when text or instruction is
whitespace-only; otherwise invokes the structured prompt, and when that yields
no usable enhancedText string, issues the secondary free-form generation call. -/
def enhanceTextFlow (input : EnhanceTextInput)
    (prompt : EnhanceTextInput → Option EnhanceTextRaw)
    (generate : String → Option String) :
    EnhanceTextOutput × List ModelCall :=
  if jsTrim input.text = "" ∨ jsTrim input.instruction = "" then
    ({ enhancedText := input.text }, [])
  else
    match prompt input with
    | some output =>
        match output.enhancedText with
        | some s =>
            ({ enhancedText := jsTrim s }, [ModelCall.structuredEnhance input])
        | none => enhanceTextSecondary input generate
    | none => enhanceTextSecondary input generate

/-- A media payload attached to a content part of a generate response. -/
structure TtsMedia where
  contentType : Option String
  url : String
  deriving DecidableEq, Repr

/-- One content part of the model's free-form reply message. -/
structure TtsPart where
  media : Option TtsMedia
  deriving DecidableEq, Repr

/-- One candidate of the raw provider payload. -/
structure TtsRawCandidate where
  finishReason : Option String
  finishMessage : Option String
  deriving DecidableEq, Repr

/-- The generate response consumed by textToSpeechFlow: the optional message
content parts, the top-level finish reason, and the raw candidates array. -/
structure TtsResponse where
  message : Option (List TtsPart)
  finishReason : Option String
  rawCandidates : Option (List TtsRawCandidate)
  deriving DecidableEq, Repr

/-- The predicate of the source's find call: the part has a media payload
whose declared contentType starts with audio/. -/
def isAudioPart (p : TtsPart) : Bool :=
  match p.media with
  | some m =>
      match m.contentType with
      | some ct => jsStartsWith ct ("audio/")
      | none => false
  | none => false

/-- Error message chosen when no usable audio part was found, following the
source's cascade: first the raw candidates (non-STOP finish reason with a
finish message), then a truthy non-STOP top-level finish reason, then generic. -/
def ttsFailureMessage (resp : TtsResponse) : String :=
  let c0 := resp.rawCandidates.bind List.head?
  if resp.rawCandidates.isSome &&
      !((c0.bind TtsRawCandidate.finishReason) == some ("STOP")) &&
      jsTruthyStr (c0.bind TtsRawCandidate.finishMessage) then
    "TTS model failed: " ++ ((c0.bind TtsRawCandidate.finishMessage).getD (""))
  else if jsTruthyStr resp.finishReason &&
      !(jsToUpper (resp.finishReason.getD ("")) == "STOP") then
    "TTS model generation failed. Reason: " ++ resp.finishReason.getD ("") ++
      ". Check server logs for full response details."
  else
    "Failed to convert text to speech. No audio data URI received from model."

/-- The catch-all wrapping in textToSpeechFlow: a message mentioning the
Google SDK is re-wrapped specially, anything else gets the Genkit prefix. -/
def wrapTtsError (msg : String) : String :=
  if jsIncludes msg ("GoogleGenerativeAI Error") then
    "[GoogleGenerativeAI Error]: Failed to generate speech. Details: " ++ msg
  else
    "Error calling Genkit for Text-to-Speech: " ++ msg

/-- textToSpeechFlow: issues one free-form generation call, selects the first
content part whose media contentType starts with audio/, and returns its URL;
when no such part (or no truthy URL on it) exists, throws the cascade error,
wrapped by the flow's own catch block. -/
def textToSpeechFlow (input : TextToSpeechInput) (resp : TtsResponse) :
    Except String TextToSpeechOutput × List ModelCall :=
  let calls := [ModelCall.freeformGenerate input.text]
  let audioPart :=
    match resp.message with
    | none => none
    | some content => content.find? isAudioPart
  match audioPart with
  | some part =>
      match part.media with
      | some m =>
          if m.url = "" then
            (Except.error (wrapTtsError (ttsFailureMessage resp)), calls)
          else
            (Except.ok { audioDataUri := m.url }, calls)
      | none => (Except.error (wrapTtsError (ttsFailureMessage resp)), calls)
  | none => (Except.error (wrapTtsError (ttsFailureMessage resp)), calls)

/-- The exported textToSpeech function: throws a plain error on
whitespace-only text before the flow (and hence the model) is reached. -/
def textToSpeech (input : TextToSpeechInput) (resp : TtsResponse) :
    Except String TextToSpeechOutput × List ModelCall :=
  if jsTrim input.text = "" then
    (Except.error ("Input text cannot be empty."), [])
  else
    textToSpeechFlow input resp

/-- Untyped JSON body of a POST to the text-to-speech endpoint (absent or
wrongly-typed fields collapse to none). -/
structure TtsRawBody where
  text : Option String
  language : Option String
  deriving DecidableEq, Repr

/-- Zod safeParse of TextToSpeechInputSchema: text is a string of length
1..1000 and language is one of the eight supported codes. -/
def parseTextToSpeechBody (b : TtsRawBody) : Option TextToSpeechInput :=
  match b.text, b.language with
  | some t, some ls =>
      if 1 ≤ t.length ∧ t.length ≤ 1000 then
        (parseTtsLang ls).map (fun l => { text := t, language := l })
      else none
  | _, _ => none

/-- Outcome of the text-to-speech HTTP endpoint. -/
inductive TtsEndpointResult where
  | success (out : TextToSpeechOutput)
  | validationFailure
  | serverFailure (msg : String)
  deriving DecidableEq, Repr

/-- HTTP status code of an endpoint outcome. -/
def TtsEndpointResult.status : TtsEndpointResult → Nat
  | TtsEndpointResult.success _ => 200
  | TtsEndpointResult.validationFailure => 400
  | TtsEndpointResult.serverFailure _ => 500

/-- The /api/text-to-speech handler: safeParse, 400 on validation failure,
otherwise run textToSpeech and map a thrown error to a 500 response. -/
def textToSpeechEndpoint (b : TtsRawBody) (resp : TtsResponse) :
    TtsEndpointResult × List ModelCall :=
  match parseTextToSpeechBody b with
  | none => (TtsEndpointResult.validationFailure, [])
  | some input =>
      match textToSpeech input resp with
      | (Except.ok o, calls) => (TtsEndpointResult.success o, calls)
      | (Except.error m, calls) => (TtsEndpointResult.serverFailure m, calls)

/-- Untyped JSON body of a POST to the get-alternative-translations endpoint. -/
structure AltRawBody where
  sourceText : Option String
  sourceLanguage : Option String
  targetLanguage : Option String
  count : Option Int
  deriving DecidableEq, Repr

/-- Zod safeParse of GetAlternativeTranslationsInputSchema: the optional count
field carries default 3, filled in when the field is absent. -/
def parseGetAlternativeTranslationsBody (b : AltRawBody) :
    Option GetAlternativeTranslationsInput :=
  match b.sourceText, b.sourceLanguage, b.targetLanguage with
  | some st, some sl, some tl =>
      match parseLang sl, parseLang tl with
      | some slv, some tlv =>
          some { sourceText := st, sourceLanguage := slv, targetLanguage := tlv,
                 count := b.count.getD 3 }
      | _, _ => none
  | _, _, _ => none

/-! Helper lemmas about the JavaScript trim model. -/

theorem dropWhile_dropWhile_self (p : Char → Bool) (l : List Char) :
    (l.dropWhile p).dropWhile p = l.dropWhile p := by
  induction l with
  | nil => rfl
  | cons a t ih =>
      by_cases h : p a
      · simp [List.dropWhile_cons, h, ih]
      · simp [List.dropWhile_cons, h]

theorem dropWhile_length_le (p : Char → Bool) (l : List Char) :
    (l.dropWhile p).length ≤ l.length := by
  induction l with
  | nil => simp
  | cons a t ih =>
      by_cases h : p a
      · rw [List.dropWhile_cons_of_pos h]
        exact le_trans ih (by simp)
      · rw [List.dropWhile_cons_of_neg h]

theorem dropWhile_append_self (p : Char → Bool) (m t : List Char)
    (h : (m ++ t).dropWhile p = m ++ t) : m.dropWhile p = m := by
  cases m with
  | nil => rfl
  | cons a s =>
      rw [List.cons_append] at h
      have ha : ¬ p a := by
        intro hpa
        have hlen := congrArg List.length h
        rw [List.dropWhile_cons_of_pos hpa] at hlen
        have hle := dropWhile_length_le p (s ++ t)
        simp [List.length_append] at hlen hle
        omega
      rw [List.dropWhile_cons_of_neg ha]

theorem dropWhile_jsTrimList (l : List Char) :
    (jsTrimList l).dropWhile jsWhitespace = jsTrimList l := by
  unfold jsTrimList
  set p := jsWhitespace
  set d := l.dropWhile p with hd
  have hdd : d.dropWhile p = d := dropWhile_dropWhile_self p l
  have hsplit : d.reverse.takeWhile p ++ d.reverse.dropWhile p = d.reverse :=
    List.takeWhile_append_dropWhile p d.reverse
  have hdec : d = (d.reverse.dropWhile p).reverse ++ (d.reverse.takeWhile p).reverse := by
    have := congrArg List.reverse hsplit
    rw [List.reverse_append, List.reverse_reverse] at this
    exact this.symm
  exact dropWhile_append_self p _ _ (by rw [← hdec]; exact hdd)

theorem jsTrimList_idem (l : List Char) :
    jsTrimList (jsTrimList l) = jsTrimList l := by
  have h1 : (jsTrimList l).dropWhile jsWhitespace = jsTrimList l := dropWhile_jsTrimList l
  show (((jsTrimList l).dropWhile jsWhitespace).reverse.dropWhile jsWhitespace).reverse =
    jsTrimList l
  rw [h1]
  have h2 : (jsTrimList l).reverse.dropWhile jsWhitespace = (jsTrimList l).reverse := by
    unfold jsTrimList
    rw [List.reverse_reverse]
    exact dropWhile_dropWhile_self jsWhitespace _
  rw [h2, List.reverse_reverse]

theorem jsTrim_idem (s : String) : jsTrim (jsTrim s) = jsTrim s :=
  congrArg String.mk (jsTrimList_idem s.toList)

theorem jsOrString_some_empty (t : String) : jsOrString (some t) ("") = t := by
  by_cases h : t = "" <;> simp [jsOrString, h]

theorem jsOrString_some_ne (s d : String) (h : s ≠ "") : jsOrString (some s) d = s := by
  simp [jsOrString, h]

theorem jsOrString_idem (v : Option String) (d : String) :
    jsOrString (some (jsOrString v d)) d = jsOrString v d := by
  cases v with
  | none => simp [jsOrString]
  | some s =>
      by_cases h : s = ""
      · subst h
        simp [jsOrString]
      · simp [jsOrString, h]

/-- Claim C1 counterexample: after a successful model invocation whose
structured output is null, translateTextFlow and speechToTextFlow return the
null reply itself (no output record, hence no defined output field), so the
pipeline does return a result with undefined fields to the caller. -/
theorem translate_and_speech_null_reply_propagates :
    (translateTextFlow
        { text := "hi", sourceLanguage := Lang.en, targetLanguage := Lang.vi }
        (fun _ => none)).fst = none ∧
    (speechToTextFlow
        { audioDataUri := "data:audio/webm;base64,AA", sourceLanguage := Lang.en,
          targetLanguage := Lang.en }
        (fun _ => none)).fst = none := by
  exact ⟨rfl, rfl⟩

/-- Claim C1 (amended): get-word-details, get-alternative-translations,
suggest-correction and enhance-text return a result with every declared output
field defined even when the model's structured output is null, substituting
the declared fallback values; translate-text and speech-to-text instead return
the model's null reply unchecked, so their callers can receive a result with
no defined fields. -/
theorem output_fallback_partition (i1 : TranslateTextInput) (i2 : SpeechToTextInput)
    (i3 : GetWordDetailsInput) (i4 : GetAlternativeTranslationsInput)
    (i5 : SuggestCorrectionInput) (i6 : EnhanceTextInput) :
    (translateTextFlow i1 (fun _ => none)).fst = none ∧
    (speechToTextFlow i2 (fun _ => none)).fst = none ∧
    (getWordDetailsFlow i3 (fun _ => none)).fst =
      (if cleanWord i3.word = "" then
        { definedWord := i3.word, type := "",
          meaning := "No word provided or word is only punctuation.",
          synonyms := [], antonyms := [] }
       else
        { definedWord := cleanWord i3.word, type := "",
          meaning := "Could not retrieve details for this word.",
          synonyms := [], antonyms := [] }) ∧
    (getAlternativeTranslationsFlow i4 (fun _ => none)).fst = { alternatives := [] } ∧
    (suggestCorrectionFlow i5 (fun _ => none)).fst =
      (if jsTrim i5.text = "" then { correctedText := "" }
       else { correctedText := i5.text }) ∧
    (enhanceTextFlow i6 (fun _ => none) (fun _ => none)).fst =
      { enhancedText := i6.text } := by
  refine ⟨rfl, rfl, ?_, ?_, ?_, ?_⟩
  · by_cases h : cleanWord i3.word = "" <;> simp [getWordDetailsFlow, h]
  · by_cases h : jsTrim i4.sourceText = "" <;>
      simp [getAlternativeTranslationsFlow, h]
  · by_cases h : jsTrim i5.text = "" <;> simp [suggestCorrectionFlow, h]
  · by_cases h : jsTrim i6.text = "" ∨ jsTrim i6.instruction = "" <;>
      simp [enhanceTextFlow, enhanceTextSecondary, h]

/-- Claim C2 counterexample: a model reply whose declared output field is
present and correctly typed but carries surrounding whitespace is not returned
unchanged by the enhance-text fallback substitution: the field is trimmed. -/
theorem enhance_normalization_alters_whitespace_reply :
    (enhanceTextFlow { text := "x", language := Lang.en, instruction := "improve" }
        (fun _ => some { enhancedText := some " hi " }) (fun _ => none)).fst =
      { enhancedText := "hi" } ∧
    (" hi " : String) ≠ "hi" := by
  exact ⟨by decide, by decide⟩

/-- Claim C2 (amended): the per-field fallback substitution is idempotent in
the sense that applying it twice equals applying it once (both for the
word-details normalizer and for the enhance-text trim step), and a well-typed
reply is returned unchanged provided its definedWord field is non-empty
(get-word-details substitutes the cleaned word for an empty one) and its
enhancedText field carries no surrounding whitespace (enhance-text trims). -/
theorem fallback_substitution_idempotent (c : String) (r : GetWordDetailsRaw)
    (e : EnhanceTextRaw) (o : GetWordDetailsOutput) (s : String) :
    wordDetailsNormalize c (GetWordDetailsOutput.toRaw (wordDetailsNormalize c r)) =
      wordDetailsNormalize c r ∧
    (enhanceNormalize e).bind
        (fun x => enhanceNormalize { enhancedText := some x.enhancedText }) =
      enhanceNormalize e ∧
    (o.definedWord ≠ "" → wordDetailsNormalize c o.toRaw = o) ∧
    (jsTrim s = s →
      enhanceNormalize { enhancedText := some s } = some { enhancedText := s }) := by
  refine ⟨?_, ?_, ?_, ?_⟩
  · simp [wordDetailsNormalize, GetWordDetailsOutput.toRaw, jsOrList, jsOrString_idem]
  · obtain ⟨et⟩ := e
    cases et with
    | none => rfl
    | some s0 => simp [enhanceNormalize, jsTrim_idem]
  · intro h
    obtain ⟨dw, ty, me, sy, an⟩ := o
    simp only [] at h
    simp [wordDetailsNormalize, GetWordDetailsOutput.toRaw, jsOrList,
      jsOrString_some_empty, jsOrString_some_ne dw c h]
  · intro h
    simp [enhanceNormalize, h]

/-- Claim C2 witness. -/
theorem fallback_substitution_idempotent_witness :
    wordDetailsNormalize ("hello")
        (GetWordDetailsOutput.toRaw
          { definedWord := "go", type := "", meaning := "move", synonyms := [],
            antonyms := [] }) =
      { definedWord := "go", type := "", meaning := "move", synonyms := [],
        antonyms := [] } ∧
    enhanceNormalize { enhancedText := some "done" } =
      some { enhancedText := "done" } := by
  refine ⟨?_, ?_⟩
  · exact (fallback_substitution_idempotent ("hello")
      { definedWord := none, type := none, meaning := none, synonyms := none,
        antonyms := none }
      { enhancedText := none }
      { definedWord := "go", type := "", meaning := "move", synonyms := [],
        antonyms := [] } ("done")).2.2.1 (by decide)
  · exact (fallback_substitution_idempotent ("hello")
      { definedWord := none, type := none, meaning := none, synonyms := none,
        antonyms := none }
      { enhancedText := none }
      { definedWord := "go", type := "", meaning := "move", synonyms := [],
        antonyms := [] } ("done")).2.2.2 (by decide)

/-- Claim C3 counterexample: with sourceLanguage equal to targetLanguage, the
speech-to-text flow returns the model's reply verbatim, so a reply whose
translation differs from its transcription reaches the caller unchanged. -/
theorem speechToText_translation_not_enforced :
    ({ audioDataUri := "data:audio/webm;base64,AA", sourceLanguage := Lang.en,
       targetLanguage := Lang.en } : SpeechToTextInput).sourceLanguage =
      ({ audioDataUri := "data:audio/webm;base64,AA", sourceLanguage := Lang.en,
         targetLanguage := Lang.en } : SpeechToTextInput).targetLanguage ∧
    (speechToTextFlow
        { audioDataUri := "data:audio/webm;base64,AA", sourceLanguage := Lang.en,
          targetLanguage := Lang.en }
        (fun _ => some { transcription := "hello", translation := "xin chao" })).fst =
      some { transcription := "hello", translation := "xin chao" } ∧
    ("xin chao" : String) ≠ "hello" := by
  exact ⟨rfl, rfl, by decide⟩

/-- Claim C3 (amended): the flow passes the model's structured reply through
unchanged, so when sourceLanguage equals targetLanguage the returned
translation equals the returned transcription exactly when the model's reply
already satisfies that equality (the prompt requests it, the code does not
enforce it). -/
theorem speechToText_passthrough_translation (i : SpeechToTextInput)
    (prompt : SpeechToTextInput → Option SpeechToTextOutput) (o : SpeechToTextOutput)
    (h1 : i.sourceLanguage = i.targetLanguage) (h2 : prompt i = some o)
    (h3 : o.translation = o.transcription) :
    (speechToTextFlow i prompt).fst = prompt i ∧
    ∃ r, (speechToTextFlow i prompt).fst = some r ∧ r.translation = r.transcription := by
  exact ⟨rfl, o, by rw [speechToTextFlow, h2], h3⟩

/-- Claim C3 witness. -/
theorem speechToText_passthrough_translation_witness :
    ∃ r, (speechToTextFlow
        { audioDataUri := "data:audio/webm;base64,AA", sourceLanguage := Lang.vi,
          targetLanguage := Lang.vi }
        (fun _ => some { transcription := "xin chao", translation := "xin chao" })).fst =
      some r ∧ r.translation = r.transcription :=
  (speechToText_passthrough_translation
    { audioDataUri := "data:audio/webm;base64,AA", sourceLanguage := Lang.vi,
      targetLanguage := Lang.vi }
    (fun _ => some { transcription := "xin chao", translation := "xin chao" })
    { transcription := "xin chao", translation := "xin chao" }
    rfl rfl rfl).2

/-- First audio part selection as the amended claim words it: the first
content part whose declared media type starts with audio/, provided it also
carries a truthy URL. -/
def ttsAudioUrl (resp : TtsResponse) : Option String :=
  match (resp.message.getD []).find? isAudioPart with
  | some part =>
      match part.media with
      | some m => if m.url = "" then none else some m.url
      | none => none
  | none => none

/-- Claim C4 counterexample: a reply holding an audio part succeeds even when
its completion reason is not a normal stop, so the invoker does not fail
whenever the completion reason is not a normal stop. -/
theorem tts_succeeds_despite_non_stop_finish :
    (textToSpeechFlow { text := "hi", language := TtsLang.en }
        ⟨some [⟨some ⟨some "audio/wav", "data:audio/wav;base64,AA"⟩⟩],
          some "MAX_TOKENS", none⟩).fst =
      Except.ok { audioDataUri := "data:audio/wav;base64,AA" } ∧
    ("MAX_TOKENS" : String) ≠ "STOP" := by
  exact ⟨by decide, by decide⟩

/-- Claim C4 (amended): the invoker selects the first content part whose
declared media type starts with audio/ and fails exactly when no such part
with a truthy URL exists; only in that failure case is the completion reason
consulted — to choose the error message, surfacing the model's own finish
message when the raw first candidate finished abnormally with a message. -/
theorem tts_extraction_characterization (i : TextToSpeechInput) (resp : TtsResponse) :
    (textToSpeechFlow i resp).fst =
      (match ttsAudioUrl resp with
       | some u => Except.ok { audioDataUri := u }
       | none => Except.error (wrapTtsError (ttsFailureMessage resp))) ∧
    (textToSpeechFlow i resp).snd = [ModelCall.freeformGenerate i.text] ∧
    (∀ c : TtsRawCandidate, resp.rawCandidates.bind List.head? = some c →
      ¬ c.finishReason = some ("STOP") → jsTruthyStr c.finishMessage = true →
      ttsFailureMessage resp = "TTS model failed: " ++ c.finishMessage.getD ("")) := by
  refine ⟨?_, ?_, ?_⟩
  · cases hm : resp.message with
    | none => simp [textToSpeechFlow, ttsAudioUrl, hm]
    | some content =>
        cases hf : content.find? isAudioPart with
        | none => simp [textToSpeechFlow, ttsAudioUrl, hm, hf]
        | some part =>
            cases hmd : part.media with
            | none => simp [textToSpeechFlow, ttsAudioUrl, hm, hf, hmd]
            | some m =>
                by_cases hu : m.url = "" <;>
                  simp [textToSpeechFlow, ttsAudioUrl, hm, hf, hmd, hu]
  · cases hm : resp.message with
    | none => simp [textToSpeechFlow, hm]
    | some content =>
        cases hf : content.find? isAudioPart with
        | none => simp [textToSpeechFlow, hm, hf]
        | some part =>
            cases hmd : part.media with
            | none => simp [textToSpeechFlow, hm, hf, hmd]
            | some m => by_cases hu : m.url = "" <;> simp [textToSpeechFlow, hm, hf, hmd, hu]
  · intro c hc hfr hfm
    cases hrc : resp.rawCandidates with
    | none => rw [hrc] at hc; simp at hc
    | some cands =>
        rw [hrc, Option.some_bind] at hc
        simp [ttsFailureMessage, hrc, hc, hfm, hfr]

/-- Claim C4 witness: the abnormal-finish error message is surfaced when no
audio part exists and the raw first candidate carries a finish message. -/
theorem tts_extraction_characterization_witness :
    ttsFailureMessage
        ⟨none, none, some [⟨some "SAFETY", some "blocked by safety settings"⟩]⟩ =
      "TTS model failed: " ++ "blocked by safety settings" :=
  (tts_extraction_characterization { text := "hi", language := TtsLang.en }
    ⟨none, none, some [⟨some "SAFETY", some "blocked by safety settings"⟩]⟩).2.2
    ⟨some "SAFETY", some "blocked by safety settings"⟩
    rfl (by decide) (by decide)

/-- Claim C5: get-word-details cleans the input word (strip punctuation, trim,
lowercase) before any model invocation — the single structured call carries the
cleaned word — and when cleaning yields the empty string the flow returns the
fixed no-word record with the original input word, issuing no model call;
cleaning sends Hello!! as hello. -/
theorem getWordDetails_input_normalization (i : GetWordDetailsInput)
    (prompt : GetWordDetailsInput → Option GetWordDetailsRaw) :
    (cleanWord i.word = "" →
      getWordDetailsFlow i prompt =
        ({ definedWord := i.word, type := "",
           meaning := "No word provided or word is only punctuation.",
           synonyms := [], antonyms := [] }, [])) ∧
    (cleanWord i.word ≠ "" →
      (getWordDetailsFlow i prompt).snd =
        [ModelCall.structuredWordDetails { word := cleanWord i.word, language := i.language }]) ∧
    cleanWord ("Hello!!") = "hello" := by
  refine ⟨?_, ?_, by decide⟩
  · intro h
    simp [getWordDetailsFlow, h]
  · intro h
    cases hp : prompt { word := cleanWord i.word, language := i.language } with
    | none => simp [getWordDetailsFlow, h, hp]
    | some output => simp [getWordDetailsFlow, h, hp]

/-- Claim C5 witness. -/
theorem getWordDetails_input_normalization_witness :
    getWordDetailsFlow { word := "   ", language := Lang.en } (fun _ => none) =
      ({ definedWord := "   ", type := "",
         meaning := "No word provided or word is only punctuation.",
         synonyms := [], antonyms := [] }, []) ∧
    (getWordDetailsFlow { word := "Hello!!", language := Lang.en } (fun _ => none)).snd =
      [ModelCall.structuredWordDetails { word := "hello", language := Lang.en }] := by
  constructor
  · exact (getWordDetails_input_normalization { word := "   ", language := Lang.en }
      (fun _ => none)).1 (by decide)
  · have h := (getWordDetails_input_normalization { word := "Hello!!", language := Lang.en }
      (fun _ => none)).2.1 (by decide)
    rw [h]
    decide

/-- Claim C6: a text-to-speech request whose text exceeds 1000 characters is
rejected by schema validation with HTTP 400 and no model invocation occurs. -/
theorem tts_overlong_text_validation (t ls : String) (resp : TtsResponse)
    (h : 1000 < t.length) :
    textToSpeechEndpoint { text := some t, language := some ls } resp =
      (TtsEndpointResult.validationFailure, []) ∧
    TtsEndpointResult.validationFailure.status = 400 := by
  refine ⟨?_, rfl⟩
  have hcond : ¬ (1 ≤ t.length ∧ t.length ≤ 1000) := by omega
  simp [textToSpeechEndpoint, parseTextToSpeechBody, hcond]

/-- Claim C6 witness: a 1001-character text is rejected with 400 and no call. -/
theorem tts_overlong_text_validation_witness :
    textToSpeechEndpoint
        { text := some (String.mk (List.replicate 1001 'a')), language := some "en" }
        { message := none, finishReason := none, rawCandidates := none } =
      (TtsEndpointResult.validationFailure, []) ∧
    TtsEndpointResult.validationFailure.status = 400 :=
  tts_overlong_text_validation (String.mk (List.replicate 1001 'a')) ("en")
    { message := none, finishReason := none, rawCandidates := none }
    (by
      have h : (String.mk (List.replicate 1001 'a')).length = 1001 := by
        show (List.replicate 1001 'a').length = 1001
        rw [List.length_replicate]
      rw [h]
      norm_num)

/-- Claim C7: a whitespace-only sourceText short-circuits the
get-alternative-translations flow to an empty alternatives list with no model
invocation, and validation fills in the default count 3 when the optional
count field is omitted from the request body. -/
theorem alternatives_short_circuit_and_count_default
    (i : GetAlternativeTranslationsInput)
    (prompt : GetAlternativeTranslationsInput → Option GetAlternativeTranslationsOutput)
    (b : AltRawBody) (inp : GetAlternativeTranslationsInput)
    (h1 : jsTrim i.sourceText = "") (h2 : b.count = none)
    (h3 : parseGetAlternativeTranslationsBody b = some inp) :
    getAlternativeTranslationsFlow i prompt = ({ alternatives := [] }, []) ∧
    inp.count = 3 := by
  refine ⟨by simp [getAlternativeTranslationsFlow, h1], ?_⟩
  obtain ⟨st, sl, tl, cnt⟩ := b
  have hcnt : cnt = none := h2
  subst hcnt
  cases st with
  | none => simp [parseGetAlternativeTranslationsBody] at h3
  | some stv =>
      cases sl with
      | none => simp [parseGetAlternativeTranslationsBody] at h3
      | some slv =>
          cases tl with
          | none => simp [parseGetAlternativeTranslationsBody] at h3
          | some tlv =>
              cases hsl : parseLang slv with
              | none => simp [parseGetAlternativeTranslationsBody, hsl] at h3
              | some slvv =>
                  cases htl : parseLang tlv with
                  | none => simp [parseGetAlternativeTranslationsBody, hsl, htl] at h3
                  | some tlvv =>
                      simp only [parseGetAlternativeTranslationsBody, hsl, htl,
                        Option.some.injEq] at h3
                      rw [← h3]
                      rfl

/-- Claim C7 witness. -/
theorem alternatives_short_circuit_and_count_default_witness :
    getAlternativeTranslationsFlow
        { sourceText := "  ", sourceLanguage := Lang.en, targetLanguage := Lang.vi,
          count := 3 }
        (fun _ => none) = ({ alternatives := [] }, []) ∧
    ({ sourceText := "hello", sourceLanguage := Lang.en, targetLanguage := Lang.vi,
       count := 3 } : GetAlternativeTranslationsInput).count = 3 :=
  alternatives_short_circuit_and_count_default
    { sourceText := "  ", sourceLanguage := Lang.en, targetLanguage := Lang.vi,
      count := 3 }
    (fun _ => none)
    { sourceText := some "hello", sourceLanguage := some "en",
      targetLanguage := some "vi", count := none }
    { sourceText := "hello", sourceLanguage := Lang.en, targetLanguage := Lang.vi,
      count := 3 }
    (by decide) rfl (by decide)

/-- Claim C8: with non-empty text but a whitespace-only instruction, the
enhance-text flow returns the original text unchanged and issues no model call. -/
theorem enhance_empty_instruction_short_circuit (i : EnhanceTextInput)
    (prompt : EnhanceTextInput → Option EnhanceTextRaw)
    (generate : String → Option String)
    (htext : i.text ≠ "") (h : jsTrim i.instruction = "") :
    enhanceTextFlow i prompt generate = ({ enhancedText := i.text }, []) := by
  simp [enhanceTextFlow, h]

/-- Claim C8 witness. -/
theorem enhance_empty_instruction_short_circuit_witness :
    enhanceTextFlow { text := "hola mundo", language := Lang.en, instruction := "   " }
        (fun _ => some { enhancedText := some "SHOULD NOT BE USED" }) (fun _ => none) =
      ({ enhancedText := "hola mundo" }, []) :=
  enhance_empty_instruction_short_circuit
    { text := "hola mundo", language := Lang.en, instruction := "   " }
    (fun _ => some { enhancedText := some "SHOULD NOT BE USED" }) (fun _ => none)
    (by decide) (by decide)

/-- Claim C9: on enhance-text, a usable primary reply is returned (trimmed)
with the single structured call; a primary reply with no usable enhancedText
triggers exactly one secondary free-form generation call whose trimmed text is
returned when non-empty, the original text otherwise; and every other flow
issues no free-form call beyond a possible single primary call — in
particular at most one model call in total. -/
theorem enhance_secondary_fallback_discipline
    (i : EnhanceTextInput) (prompt : EnhanceTextInput → Option EnhanceTextRaw)
    (generate : String → Option String)
    (h1 : jsTrim i.text ≠ "") (h2 : jsTrim i.instruction ≠ "") :
    (∀ r s, prompt i = some r → r.enhancedText = some s →
      enhanceTextFlow i prompt generate =
        ({ enhancedText := jsTrim s }, [ModelCall.structuredEnhance i])) ∧
    ((prompt i).bind EnhanceTextRaw.enhancedText = none →
      (enhanceTextFlow i prompt generate).snd =
        [ModelCall.structuredEnhance i,
         ModelCall.freeformGenerate (enhanceFallbackPrompt i)] ∧
      (enhanceTextFlow i prompt generate).fst =
        (match (generate (enhanceFallbackPrompt i)).map jsTrim with
         | some t => if t = "" then { enhancedText := i.text } else { enhancedText := t }
         | none => { enhancedText := i.text })) ∧
    (∀ (a : TranslateTextInput) (pa : TranslateTextInput → Option TranslateTextOutput),
      (translateTextFlow a pa).snd.countP ModelCall.isFreeform = 0 ∧
      (translateTextFlow a pa).snd.length ≤ 1) ∧
    (∀ (a : SpeechToTextInput) (pa : SpeechToTextInput → Option SpeechToTextOutput),
      (speechToTextFlow a pa).snd.countP ModelCall.isFreeform = 0 ∧
      (speechToTextFlow a pa).snd.length ≤ 1) ∧
    (∀ (a : GetWordDetailsInput) (pa : GetWordDetailsInput → Option GetWordDetailsRaw),
      (getWordDetailsFlow a pa).snd.countP ModelCall.isFreeform = 0 ∧
      (getWordDetailsFlow a pa).snd.length ≤ 1) ∧
    (∀ (a : GetAlternativeTranslationsInput)
        (pa : GetAlternativeTranslationsInput → Option GetAlternativeTranslationsOutput),
      (getAlternativeTranslationsFlow a pa).snd.countP ModelCall.isFreeform = 0 ∧
      (getAlternativeTranslationsFlow a pa).snd.length ≤ 1) ∧
    (∀ (a : SuggestCorrectionInput)
        (pa : SuggestCorrectionInput → Option SuggestCorrectionRaw),
      (suggestCorrectionFlow a pa).snd.countP ModelCall.isFreeform = 0 ∧
      (suggestCorrectionFlow a pa).snd.length ≤ 1) ∧
    (∀ (a : TextToSpeechInput) (resp : TtsResponse),
      (textToSpeechFlow a resp).snd.length ≤ 1) := by
  refine ⟨?_, ?_, ?_, ?_, ?_, ?_, ?_, ?_⟩
  · intro r s hr hs
    simp [enhanceTextFlow, h1, h2, hr, hs]
  · intro h
    have hsec : enhanceTextFlow i prompt generate = enhanceTextSecondary i generate := by
      cases hp : prompt i with
      | none => simp [enhanceTextFlow, h1, h2, hp]
      | some r =>
          rw [hp, Option.some_bind] at h
          simp [enhanceTextFlow, h1, h2, hp, h]
    rw [hsec]
    constructor
    · cases hg : generate (enhanceFallbackPrompt i) with
      | none => simp [enhanceTextSecondary, hg]
      | some s => by_cases ht : jsTrim s = "" <;> simp [enhanceTextSecondary, hg, ht]
    · cases hg : generate (enhanceFallbackPrompt i) with
      | none => simp [enhanceTextSecondary, hg]
      | some s => by_cases ht : jsTrim s = "" <;> simp [enhanceTextSecondary, hg, ht]
  · intro a pa
    simp [translateTextFlow, List.countP_cons, ModelCall.isFreeform]
  · intro a pa
    simp [speechToTextFlow, List.countP_cons, ModelCall.isFreeform]
  · intro a pa
    by_cases hcw : cleanWord a.word = ""
    · simp [getWordDetailsFlow, hcw]
    · cases hp : pa { word := cleanWord a.word, language := a.language } <;>
        simp [getWordDetailsFlow, hcw, hp, List.countP_cons, ModelCall.isFreeform]
  · intro a pa
    by_cases hst : jsTrim a.sourceText = "" <;>
      simp [getAlternativeTranslationsFlow, hst, List.countP_cons, ModelCall.isFreeform]
  · intro a pa
    by_cases hst : jsTrim a.text = ""
    · simp [suggestCorrectionFlow, hst]
    · cases hp : pa a with
      | none => simp [suggestCorrectionFlow, hst, hp, List.countP_cons, ModelCall.isFreeform]
      | some r =>
          cases hr : r.correctedText <;>
            simp [suggestCorrectionFlow, hst, hp, hr, List.countP_cons, ModelCall.isFreeform]
  · intro a resp
    cases hm : resp.message with
    | none => simp [textToSpeechFlow, hm]
    | some content =>
        cases hf : content.find? isAudioPart with
        | none => simp [textToSpeechFlow, hm, hf]
        | some part =>
            cases hmd : part.media with
            | none => simp [textToSpeechFlow, hm, hf, hmd]
            | some m =>
                by_cases hu : m.url = "" <;> simp [textToSpeechFlow, hm, hf, hmd, hu]

/-- Claim C9 witness: a usable primary reply suppresses the secondary call; an
unusable one (null structured output) routes to the secondary call's text. -/
theorem enhance_secondary_fallback_discipline_witness :
    enhanceTextFlow { text := "good day", language := Lang.en, instruction := "shorten" }
        (fun _ => some { enhancedText := some " ok " }) (fun _ => none) =
      ({ enhancedText := "ok" },
       [ModelCall.structuredEnhance
          { text := "good day", language := Lang.en, instruction := "shorten" }]) ∧
    (enhanceTextFlow { text := "good day", language := Lang.en, instruction := "shorten" }
        (fun _ => none) (fun _ => some "better day")).fst =
      { enhancedText := "better day" } := by
  constructor
  · have h := (enhance_secondary_fallback_discipline
      { text := "good day", language := Lang.en, instruction := "shorten" }
      (fun _ => some { enhancedText := some " ok " }) (fun _ => none)
      (by decide) (by decide)).1 { enhancedText := some " ok " } (" ok ") rfl rfl
    exact h.trans (by decide)
  · have h := (enhance_secondary_fallback_discipline
      { text := "good day", language := Lang.en, instruction := "shorten" }
      (fun _ => none) (fun _ => some "better day")
      (by decide) (by decide)).2.1 rfl
    exact h.2.trans (by decide)

/-- Claim C10: a text within the schema's length bounds but consisting only of
whitespace passes validation, then the exported textToSpeech function throws
the plain error before any flow or model call, surfacing as HTTP 500 (not 400)
at the endpoint. -/
theorem tts_whitespace_text_plain_error (t ls : String) (l : TtsLang)
    (resp : TtsResponse) (hl : parseTtsLang ls = some l) (h1 : t ≠ "")
    (h2 : t.length ≤ 1000) (h3 : jsTrim t = "") :
    textToSpeechEndpoint { text := some t, language := some ls } resp =
      (TtsEndpointResult.serverFailure ("Input text cannot be empty."), []) ∧
    (TtsEndpointResult.serverFailure ("Input text cannot be empty.")).status = 500 ∧
    (TtsEndpointResult.serverFailure ("Input text cannot be empty.")).status ≠ 400 := by
  refine ⟨?_, rfl, by decide⟩
  have hlen : 1 ≤ t.length := by
    by_contra hcon
    push_neg at hcon
    have hz : t.length = 0 := by omega
    apply h1
    cases t with
    | mk data =>
        cases data with
        | nil => rfl
        | cons a l2 => simp [String.length] at hz
  simp [textToSpeechEndpoint, parseTextToSpeechBody, hlen, h2, hl, textToSpeech, h3]

/-- Claim C10 witness. -/
theorem tts_whitespace_text_plain_error_witness :
    textToSpeechEndpoint { text := some " ", language := some "en" }
        { message := none, finishReason := none, rawCandidates := none } =
      (TtsEndpointResult.serverFailure ("Input text cannot be empty."), []) ∧
    (TtsEndpointResult.serverFailure ("Input text cannot be empty.")).status = 500 ∧
    (TtsEndpointResult.serverFailure ("Input text cannot be empty.")).status ≠ 400 :=
  tts_whitespace_text_plain_error (" ") ("en") TtsLang.en
    { message := none, finishReason := none, rawCandidates := none }
    (by decide) (by decide) (by decide) (by decide)

end LinguaCraft
